import Mathlib

/-!
Verification development for the Wolt gift-card worker core
(parse_pdf.py, plus the fetch-gift-cards handler of main.py).

The Python functions are embedded shallowly:

* A `Page` is `Option String`: `none` models a page whose text read
  (page.get_text in the source) raises an exception.
* A `Document` is `Option (List Page)`: `none` models a file that
  fitz.open cannot open (a corrupt or unreadable document).
* Fallible operations return `Except PdfError _`; a Python exception
  escaping a function is `Except.error`.
* The concrete regular expressions of the source are compiled by hand
  into scanning functions over `List Char`.  Each compilation is
  justified next to its definition: the patterns are simple enough that
  greedy matching plus backtracking collapses to a deterministic scan.
-/

set_option exponentiation.threshold 1100
set_option maxRecDepth 8192

/-- Word characters for the Python regex word boundary.  Python re is
Unicode-aware; the inputs in scope use ASCII alphanumerics, the
underscore, and Hebrew letters (block 0x0590 to 0x05FF), all of which
are word characters in Python. -/
def isWordChar (c : Char) : Bool :=
  ('A' ≤ c && c ≤ 'Z') || ('a' ≤ c && c ≤ 'z') || ('0' ≤ c && c ≤ '9') ||
    c = '_' || (0x590 ≤ c.toNat && c.toNat ≤ 0x5FF)

/-- The character class [A-Z0-9] of the code patterns. -/
def isCodeChar (c : Char) : Bool :=
  ('A' ≤ c && c ≤ 'Z') || ('0' ≤ c && c ≤ '9')

/-- The class [A-Z0-9] under re.IGNORECASE, as used by the third code
pattern.  CPython case-folds class members, so besides the ASCII
letters and digits exactly four further codepoints match (an
exhaustive scan of all codepoints against CPython re confirms the set
the library reference documents): U+0130 (capital I with dot above),
U+0131 (dotless i), U+017F (long s) and U+212A (Kelvin sign).  The
letters of the literal marker (c, o, d, e) gain no such extras, so the
ASCII lowering used for the marker below is exact. -/
def isCodeCharIgn (c : Char) : Bool :=
  isCodeChar c || ('a' ≤ c && c ≤ 'z') ||
    c.toNat = 0x130 || c.toNat = 0x131 || c.toNat = 0x17F || c.toNat = 0x212A

/-- ASCII decimal digits, the relevant fragment of Python regex \d. -/
def isDigitCh (c : Char) : Bool :=
  '0' ≤ c && c ≤ '9'

/-- Whitespace, the relevant fragment of Python regex \s
(space, tab, newline, carriage return, vertical tab, form feed). -/
def isSpaceCh (c : Char) : Bool :=
  c = ' ' || c = '\t' || c = '\n' || c = '\r' ||
    c.toNat = 0xB || c.toNat = 0xC

/-- Length of the longest run of characters satisfying p at the head. -/
def countLeading (p : Char → Bool) : List Char → Nat
  | [] => 0
  | c :: cs => if p c then countLeading p cs + 1 else 0

/-- Drop the maximal run of regex whitespace at the head (greedy \s*). -/
def dropSpaces : List Char → List Char
  | [] => []
  | c :: cs => if isSpaceCh c then dropSpaces cs else c :: cs

/-- A word boundary holds before the current position when the previous
character (if any) is not a word character; the token classes below
contain only word characters, so the boundary condition reduces to
this check. -/
def boundaryBefore (prev : Option Char) : Bool :=
  match prev with
  | none => true
  | some c => !isWordChar c

/-- A word boundary holds after the matched run when the next character
(if any) is not a word character. -/
def boundaryAfter (rest : List Char) : Bool :=
  match rest with
  | [] => true
  | c :: _ => !isWordChar c

/-- Leftmost match of the pattern \b[A-Z0-9]{lo,hi}\b, the shape of the
first and second code patterns of extract_gift_card_code.  Because
every [A-Z0-9] character is a word character, a match starting at a
position can only take the whole maximal [A-Z0-9] run there (a shorter
greedy attempt leaves a word character adjacent to the trailing \b and
fails), so the match at a position succeeds exactly when the boundary
holds before it, the run length n satisfies lo ≤ n ≤ hi, and the
character after the run (if any) is not a word character.  The scan
tries each position left to right, as re.search and re.findall do. -/
def findBoundedToken (lo hi : Nat) : Option Char → List Char → Option (List Char)
  | _, [] => none
  | prev, c :: cs =>
    if boundaryBefore prev = true ∧
        lo ≤ countLeading isCodeChar (c :: cs) ∧
        countLeading isCodeChar (c :: cs) ≤ hi ∧
        boundaryAfter ((c :: cs).drop (countLeading isCodeChar (c :: cs))) = true then
      some ((c :: cs).take (countLeading isCodeChar (c :: cs)))
    else
      findBoundedToken lo hi (some c) cs

/-- First code pattern: re.findall of \b[A-Z0-9]{8}\b over a page text
followed by taking matches[0], which is the leftmost match. -/
def pattern1 (text : String) : Option String :=
  match findBoundedToken 8 8 none text.data with
  | some cs => some ⟨cs⟩
  | none => none

/-- Substring containment, the Python operator `in` on strings. -/
def containsSub (needle : List Char) : List Char → Bool
  | [] => needle.isEmpty
  | c :: cs => needle.isPrefixOf (c :: cs) || containsSub needle cs

/-- The Hebrew marker word (code) of the second pattern. -/
def hebrewMarker : List Char := "קוד".data

/-- Second code pattern: for each line in order, if the line contains
the Hebrew marker, findall \b[A-Z0-9]{7,9}\b on the line and return the
first candidate; a marker line with no candidate falls through to the
next line, as in the source loop. -/
def hebrewLineCode : List String → Option String
  | [] => none
  | l :: rest =>
    if containsSub hebrewMarker l.data = true then
      match findBoundedToken 7 9 none l.data with
      | some cs => some (⟨cs⟩ : String)
      | none => hebrewLineCode rest
    else
      hebrewLineCode rest

/-- ASCII lowercase conversion, the effect of re.IGNORECASE on the
literal marker of the third pattern. -/
def lowerCh (c : Char) : Char :=
  if 'A' ≤ c && c ≤ 'Z' then Char.ofNat (c.toNat + 32) else c

/-- Attempt of the third pattern (?:code|code:)\s*([A-Z0-9]{7,9}) with
re.IGNORECASE at one position.  The alternation is deterministic: after
the literal marker, when the next character is a colon only the second
alternative can proceed (a colon is neither whitespace nor in the
class), and otherwise only the first can, so the net effect is to skip
one optional colon immediately after the marker.  The capture group is
greedy with nothing after it, so it takes min(run, 9) characters of the
class and needs at least 7; there is no trailing word boundary. -/
def tryCodeMarkerAt (cs : List Char) : Option (List Char) :=
  match cs with
  | c1 :: c2 :: c3 :: c4 :: rest =>
    if lowerCh c1 = 'c' ∧ lowerCh c2 = 'o' ∧ lowerCh c3 = 'd' ∧ lowerCh c4 = 'e' then
      let rest2 := if rest.head? = some ':' then rest.tail else rest
      let rest3 := dropSpaces rest2
      let n := countLeading isCodeCharIgn rest3
      if 7 ≤ n then some (rest3.take (min n 9)) else none
    else none
  | _ => none

/-- Leftmost match of the third pattern on one line (re.search). -/
def findCodeMarker : List Char → Option (List Char)
  | [] => none
  | c :: cs =>
    match tryCodeMarkerAt (c :: cs) with
    | some t => some t
    | none => findCodeMarker cs

/-- Third code pattern: for each line in order, return the capture of
the first line where the marker pattern matches. -/
def markerLineCode : List String → Option String
  | [] => none
  | l :: rest =>
    match findCodeMarker l.data with
    | some cs => some (⟨cs⟩ : String)
    | none => markerLineCode rest

/-- Python str.split on the newline separator, as a structural
recursion over the character list (same semantics as the library
splitOn for this separator). -/
def splitNl : List Char → List (List Char)
  | [] => [[]]
  | c :: cs =>
    if c = '\n' then [] :: splitNl cs
    else
      match splitNl cs with
      | l :: ls => (c :: l) :: ls
      | [] => [[c]]

/-- The lines of a text, as produced by text.split in the source. -/
def linesOf (text : String) : List String :=
  (splitNl text.data).map fun l => (⟨l⟩ : String)

/-- The three code strategies applied to the text of ONE page, in the
priority order of the source: first the 8-character pattern on the
whole page text, then the Hebrew-marker lines, then the marker-literal
lines; first success wins. -/
def codeFromPageText (text : String) : Option String :=
  match pattern1 text with
  | some c => some c
  | none =>
    match hebrewLineCode (linesOf text) with
    | some c => some c
    | none => markerLineCode (linesOf text)

/-- A page: some text, or a page whose text read raises. -/
abbrev Page := Option String

/-- A document: a readable page list, or a file fitz.open rejects. -/
abbrev Document := Option (List Page)

/-- The exception channel of the embedding. -/
abbrev PdfError := Unit

/-- The page loop of extract_gift_card_code: pages are processed in
order, all three strategies per page; a failing page read raises out of
the function (there is no try/except in the source function). -/
def codeFromPages : List Page → Except PdfError (Option String)
  | [] => Except.ok none
  | none :: _ => Except.error ()
  | some t :: rest =>
    match codeFromPageText t with
    | some c => Except.ok (some c)
    | none => codeFromPages rest

/-- extract_gift_card_code of parse_pdf.py.  Opening the document and
reading each page can raise; the function installs no handler. -/
def extract_gift_card_code (doc : Document) : Except PdfError (Option String) :=
  match doc with
  | none => Except.error ()
  | some pages => codeFromPages pages

/-- The accumulation loop of extract_pdf_text.  The accumulator lives
outside the try block in the source, so when a page read raises, the
except arm logs and the function returns the text accumulated so far. -/
def pagesText : List Page → String → String
  | [], acc => acc
  | none :: _, acc => acc
  | some t :: rest, acc => pagesText rest (acc ++ t)

/-- extract_pdf_text of parse_pdf.py: best effort, never raises; an
unopenable document yields the initial empty accumulator. -/
def extract_pdf_text (doc : Document) : String :=
  match doc with
  | none => ""
  | some pages => pagesText pages ""

/-- Numeric value of a digit string, the effect of Python int on the
captured digits (all captures below are pure ASCII digit runs; the
int(float(...)) of the third value pattern is exact on them for every
amount below 2^53, which covers the domain). -/
def digitsToNat (ds : List Char) : Nat :=
  ds.foldl (fun acc c => acc * 10 + (c.toNat - '0'.toNat)) 0

/-- Attempt of the first value pattern (\d+)\.00\s*₪ at one position:
a maximal nonempty digit run (greedy \d+ cannot give digits back, the
next literal is a dot), the literal .00, optional whitespace, the
shekel sign; the capture is the digit run. -/
def shekelDecimalAt (cs : List Char) : Option Nat :=
  let n := countLeading isDigitCh cs
  if 1 ≤ n then
    match cs.drop n with
    | '.' :: '0' :: '0' :: rest =>
      match dropSpaces rest with
      | '₪' :: _ => some (digitsToNat (cs.take n))
      | _ => none
    | _ => none
  else none

/-- Leftmost match of the first value pattern (re.search). -/
def findShekelDecimal : List Char → Option Nat
  | [] => none
  | c :: cs =>
    match shekelDecimalAt (c :: cs) with
    | some v => some v
    | none => findShekelDecimal cs

/-- Attempt of the second value pattern (?:₪\s*(\d+))|(?:(\d+)\s*₪) at
one position.  The alternatives are disjoint on the first character;
in the second alternative the greedy \d+ cannot give digits back (a
digit is neither \s nor the shekel sign), so the amount is the maximal
digit run; the non-None capture group is taken, as in the source. -/
def shekelAt (cs : List Char) : Option Nat :=
  if cs.head? = some '₪' then
    let rest := dropSpaces cs.tail
    let n := countLeading isDigitCh rest
    if 1 ≤ n then some (digitsToNat (rest.take n)) else none
  else
    let n := countLeading isDigitCh cs
    if 1 ≤ n then
      match dropSpaces (cs.drop n) with
      | '₪' :: _ => some (digitsToNat (cs.take n))
      | _ => none
    else none

/-- Leftmost match of the second value pattern (re.search). -/
def findShekel : List Char → Option Nat
  | [] => none
  | c :: cs =>
    match shekelAt (c :: cs) with
    | some v => some v
    | none => findShekel cs

/-- Skip an optional decimal fraction (?:\.\d+)? after the amount in
the third value pattern: a dot followed by a nonempty maximal digit run
is consumed, anything else leaves the input unchanged (when the
optional group fails inside, the regex proceeds without it; a shorter
fraction run cannot succeed because a digit is not \s and not the
literal that follows). -/
def ilsFracSkip (after : List Char) : List Char :=
  if after.head? = some '.' ∧ 1 ≤ countLeading isDigitCh after.tail then
    after.tail.drop (countLeading isDigitCh after.tail)
  else after

/-- The literal ILS (case sensitive in the source). -/
def ilsLit : List Char := ['I', 'L', 'S']

/-- Attempt of the third value pattern
(?:ILS\s*(\d+)(?:\.\d+)?)|(?:(\d+)(?:\.\d+)?\s*ILS) at one position.
The alternatives are disjoint on the first character (the letter I is
not a digit); in each, the greedy \d+ of the capture cannot give
digits back, so the capture is the maximal digit run, and the optional
fraction is never part of the capture. -/
def ilsAt (cs : List Char) : Option Nat :=
  if ilsLit.isPrefixOf cs then
    let rest := dropSpaces (cs.drop 3)
    let n := countLeading isDigitCh rest
    if 1 ≤ n then some (digitsToNat (rest.take n)) else none
  else
    let n := countLeading isDigitCh cs
    if 1 ≤ n then
      if ilsLit.isPrefixOf (dropSpaces (ilsFracSkip (cs.drop n))) then
        some (digitsToNat (cs.take n))
      else none
    else none

/-- Leftmost match of the third value pattern (re.search). -/
def findIls : List Char → Option Nat
  | [] => none
  | c :: cs =>
    match ilsAt (c :: cs) with
    | some v => some v
    | none => findIls cs

/-- The smallest integer whose correctly rounded double is infinite:
with round to nearest, ties to even, a decimal value rounds up to
2 ^ 1024 (infinity) exactly from the midpoint 2 ^ 1024 - 2 ^ 970
between the largest finite double and 2 ^ 1024. -/
def floatInfThreshold : Nat := 2 ^ 1024 - 2 ^ 970

/-- Round a natural number to the nearest IEEE double value (53-bit
significand, round half to even); exact below 2 ^ 53.  CPython float()
of a decimal digit string is correctly rounded, and int() of the
resulting finite double is exact, so below the infinity threshold this
is int(float(s)) of the digit string s (validated against CPython on
20000 random values of 53 to 1020 bits and the edge cases). -/
def floatRound (d : Nat) : Nat :=
  if d < 2 ^ 53 then d
  else
    let k := d.log2 - 52
    let q := d / 2 ^ k
    let r := d % 2 ^ k
    let half := 2 ^ (k - 1)
    if half < r ∨ (r = half ∧ q % 2 = 1) then (q + 1) * 2 ^ k else q * 2 ^ k

/-- int(float(s)) of the ILS branch on a captured digit string of
value d: when the correctly rounded double is infinite, int() raises
OverflowError (cannot convert float infinity to integer), modeled as
the error; otherwise the result is the rounded value. -/
def pyIntFloat (d : Nat) : Except PdfError Nat :=
  if floatInfThreshold ≤ d then Except.error ()
  else Except.ok (floatRound d)

/-- extract_gift_card_value of parse_pdf.py: three currency patterns
in priority order, defaulting to 0.  The first two branches apply
int() to the captured digits, which never raises; the ILS branch
applies int(float(...)), which raises for captures at the float
infinity threshold, and that exception escapes the function (it has
no try/except). -/
def extract_gift_card_value (text : String) : Except PdfError Nat :=
  match findShekelDecimal text.data with
  | some v => Except.ok v
  | none =>
    match findShekel text.data with
    | some v => Except.ok v
    | none =>
      match findIls text.data with
      | some d => pyIntFloat d
      | none => Except.ok 0

/-- extract_gift_card_details of parse_pdf.py.  The code locator runs
first and its exceptions propagate; a found code is a nonempty string,
so the falsiness test `if not code` of the source is exactly the None
test of the embedding.  The value locator runs on the extracted text
and its exception (the ILS overflow) also propagates. -/
def extract_gift_card_details (doc : Document) :
    Except PdfError (Option String × Nat) :=
  match extract_gift_card_code doc with
  | Except.error e => Except.error e
  | Except.ok none => Except.ok (none, 0)
  | Except.ok (some c) =>
    match extract_gift_card_value (extract_pdf_text doc) with
    | Except.error e => Except.error e
    | Except.ok v => Except.ok (some c, v)

/-- The components of the extraction core, for invocation traces. -/
inductive Component
  | codeLocator
  | textExtractor
  | valueLocator
deriving DecidableEq

/-- extract_gift_card_details instrumented with the list of components
it invokes, in order, following the control flow of the source. -/
def detailsWithTrace (doc : Document) :
    Except PdfError (Option String × Nat) × List Component :=
  match extract_gift_card_code doc with
  | Except.error e => (Except.error e, [Component.codeLocator])
  | Except.ok none => (Except.ok (none, 0), [Component.codeLocator])
  | Except.ok (some c) =>
    (match extract_gift_card_value (extract_pdf_text doc) with
     | Except.error e => Except.error e
     | Except.ok v => Except.ok (some c, v),
      [Component.codeLocator, Component.textExtractor, Component.valueLocator])

/-- An HTTP error raised by the handler (FastAPI HTTPException that is
raised, aborting the request with that status). -/
structure HttpError where
  status : Nat
  detail : String
deriving DecidableEq

/-- A value returned normally by the fetch_gift_cards handler: either
the JSON summary, or an HTTPException object returned as a plain value
(serialized as a 200 response body by the framework). -/
inductive HandlerValue
  | summary (totalCodes codesSaved : Nat)
  | exceptionValue (status : Nat) (detail : String)
deriving DecidableEq

/-- The Bearer-scheme test of the authorization header, the Python
startswith call of the source. -/
def startsWithBearer (authorization : String) : Bool :=
  "Bearer ".data.isPrefixOf authorization.data

/-- The fetch_gift_cards handler of main.py, up to the subject check.
Token validation and the mailbox and persistence collaborators are out
of scope (spec section 1); the validated subjects are parameters and
`proceed` abstracts the rest of the handler body (the Gmail fetch loop
and the Supabase save).  The source tests the Bearer scheme, then
compares the two subjects, and on mismatch RETURNS (not raises) a 401
HTTPException object. -/
def fetch_gift_cards (authorization supabaseSub gmailSub : String)
    (proceed : Except HttpError HandlerValue) : Except HttpError HandlerValue :=
  if startsWithBearer authorization = false then
    Except.error ⟨400, "Invalid Authorization header"⟩
  else if supabaseSub = gmailSub then
    proceed
  else
    Except.ok (HandlerValue.exceptionValue 401
      "Subjects for Supabase and Gmail don\x27t match, stopping.")

/-! ## Helper lemmas -/

theorem countLeading_le_length (p : Char → Bool) (cs : List Char) :
    countLeading p cs ≤ cs.length := by
  induction cs with
  | nil => simp [countLeading]
  | cons c cs ih =>
    simp only [countLeading, List.length_cons]
    split
    · omega
    · omega

theorem take_all_of_le_countLeading (p : Char → Bool) :
    ∀ (cs : List Char) (k : Nat), k ≤ countLeading p cs →
      ∀ c ∈ cs.take k, p c = true := by
  intro cs
  induction cs with
  | nil => intro k hk c hc; simp at hc
  | cons a cs ih =>
    intro k hk c hc
    cases k with
    | zero => simp at hc
    | succ k =>
      by_cases hp : p a = true
      · rw [countLeading, if_pos hp] at hk
        simp only [List.take, List.mem_cons] at hc
        rcases hc with rfl | hc
        · exact hp
        · exact ih k (by omega) c hc
      · rw [countLeading, if_neg hp] at hk
        omega

theorem countLeading_append (p : Char → Bool) (xs : List Char) (y : Char)
    (zs : List Char) (hxs : ∀ c ∈ xs, p c = true) (hy : p y = false) :
    countLeading p (xs ++ y :: zs) = xs.length := by
  induction xs with
  | nil => simp [countLeading, hy]
  | cons a xs ih =>
    have ha : p a = true := hxs a (by simp)
    have ih2 := ih (fun c hc => hxs c (by simp [hc]))
    show countLeading p (a :: (xs ++ y :: zs)) = xs.length + 1
    rw [countLeading, if_pos ha, ih2]

theorem isCodeCharIgn_of_isCodeChar (c : Char) (h : isCodeChar c = true) :
    isCodeCharIgn c = true := by
  simp [isCodeCharIgn, h]

theorem findBoundedToken_spec (lo hi : Nat) :
    ∀ (cs : List Char) (prev : Option Char) (t : List Char),
      findBoundedToken lo hi prev cs = some t →
      (∀ c ∈ t, isCodeChar c = true) ∧ lo ≤ t.length ∧ t.length ≤ hi := by
  intro cs
  induction cs with
  | nil => intro prev t h; simp [findBoundedToken] at h
  | cons c cs ih =>
    intro prev t h
    simp only [findBoundedToken] at h
    split at h
    · rename_i hcond
      obtain ⟨h1, h2, h3, h4⟩ := hcond
      injection h with h
      subst h
      have hlen := countLeading_le_length isCodeChar (c :: cs)
      refine ⟨?_, ?_, ?_⟩
      · exact take_all_of_le_countLeading isCodeChar (c :: cs) _ le_rfl
      · rw [List.length_take]
        omega
      · rw [List.length_take]
        omega
    · exact ih (some c) t h

theorem takeMin9_spec (rest3 : List Char)
    (hn : 7 ≤ countLeading isCodeCharIgn rest3) :
    (∀ c ∈ rest3.take (min (countLeading isCodeCharIgn rest3) 9),
        isCodeCharIgn c = true) ∧
      7 ≤ (rest3.take (min (countLeading isCodeCharIgn rest3) 9)).length ∧
      (rest3.take (min (countLeading isCodeCharIgn rest3) 9)).length ≤ 9 := by
  have hlen := countLeading_le_length isCodeCharIgn rest3
  refine ⟨?_, ?_, ?_⟩
  · exact take_all_of_le_countLeading isCodeCharIgn rest3 _ (by omega)
  · rw [List.length_take]
    omega
  · rw [List.length_take]
    omega

theorem tryCodeMarkerAt_spec (cs t : List Char) (h : tryCodeMarkerAt cs = some t) :
    (∀ c ∈ t, isCodeCharIgn c = true) ∧ 7 ≤ t.length ∧ t.length ≤ 9 := by
  rcases cs with _ | ⟨c1, _ | ⟨c2, _ | ⟨c3, _ | ⟨c4, rest⟩⟩⟩⟩ <;>
    simp only [tryCodeMarkerAt] at h
  · exact absurd h (by simp)
  · exact absurd h (by simp)
  · exact absurd h (by simp)
  · exact absurd h (by simp)
  · generalize hg : dropSpaces (if rest.head? = some ':' then rest.tail else rest) = rest3 at h
    split at h
    · split at h
      · rename_i hn
        injection h with h
        subst h
        exact takeMin9_spec rest3 hn
      · exact absurd h (by simp)
    · exact absurd h (by simp)

theorem findCodeMarker_spec :
    ∀ (cs t : List Char), findCodeMarker cs = some t →
      (∀ c ∈ t, isCodeCharIgn c = true) ∧ 7 ≤ t.length ∧ t.length ≤ 9 := by
  intro cs
  induction cs with
  | nil => intro t h; simp [findCodeMarker] at h
  | cons c cs ih =>
    intro t h
    simp only [findCodeMarker] at h
    cases htry : tryCodeMarkerAt (c :: cs) with
    | some t2 =>
      rw [htry] at h
      injection h with h
      subst h
      exact tryCodeMarkerAt_spec _ _ htry
    | none =>
      rw [htry] at h
      exact ih t h

theorem hebrewLineCode_spec :
    ∀ (lines : List String) (s : String), hebrewLineCode lines = some s →
      (∀ c ∈ s.data, isCodeChar c = true) ∧ 7 ≤ s.length ∧ s.length ≤ 9 := by
  intro lines
  induction lines with
  | nil => intro s h; simp [hebrewLineCode] at h
  | cons l rest ih =>
    intro s h
    simp only [hebrewLineCode] at h
    split at h
    · cases hfb : findBoundedToken 7 9 none l.data with
      | some cs =>
        rw [hfb] at h
        injection h with h
        subst h
        exact findBoundedToken_spec 7 9 l.data none cs hfb
      | none =>
        rw [hfb] at h
        exact ih s h
    · exact ih s h

theorem markerLineCode_spec :
    ∀ (lines : List String) (s : String), markerLineCode lines = some s →
      (∀ c ∈ s.data, isCodeCharIgn c = true) ∧ 7 ≤ s.length ∧ s.length ≤ 9 := by
  intro lines
  induction lines with
  | nil => intro s h; simp [markerLineCode] at h
  | cons l rest ih =>
    intro s h
    simp only [markerLineCode] at h
    cases hfm : findCodeMarker l.data with
    | some cs =>
      rw [hfm] at h
      injection h with h
      subst h
      exact findCodeMarker_spec l.data cs hfm
    | none =>
      rw [hfm] at h
      exact ih s h

theorem pattern1_spec (text : String) (s : String) (h : pattern1 text = some s) :
    (∀ c ∈ s.data, isCodeChar c = true) ∧ s.length = 8 := by
  simp only [pattern1] at h
  cases hfb : findBoundedToken 8 8 none text.data with
  | some cs =>
    rw [hfb] at h
    injection h with h
    subst h
    have hsp := findBoundedToken_spec 8 8 text.data none cs hfb
    have h2 := hsp.2
    refine ⟨hsp.1, ?_⟩
    show cs.length = 8
    omega
  | none => rw [hfb] at h; exact Option.noConfusion h

theorem codeFromPageText_shape (text : String) (s : String)
    (h : codeFromPageText text = some s) :
    (∀ c ∈ s.data, isCodeCharIgn c = true) ∧ 7 ≤ s.length ∧ s.length ≤ 9 := by
  simp only [codeFromPageText] at h
  cases hp : pattern1 text with
  | some c =>
    rw [hp] at h
    injection h with h
    subst h
    have hsp := pattern1_spec text _ hp
    exact ⟨fun d hd => isCodeCharIgn_of_isCodeChar d (hsp.1 d hd), by omega, by omega⟩
  | none =>
    rw [hp] at h
    cases hh : hebrewLineCode (linesOf text) with
    | some c =>
      rw [hh] at h
      injection h with h
      subst h
      have hsp := hebrewLineCode_spec (linesOf text) _ hh
      exact ⟨fun d hd => isCodeCharIgn_of_isCodeChar d (hsp.1 d hd), hsp.2.1, hsp.2.2⟩
    | none =>
      rw [hh] at h
      exact markerLineCode_spec (linesOf text) s h

theorem codeFromPages_shape :
    ∀ (pages : List Page) (s : String),
      codeFromPages pages = Except.ok (some s) →
      (∀ c ∈ s.data, isCodeCharIgn c = true) ∧ 7 ≤ s.length ∧ s.length ≤ 9 := by
  intro pages
  induction pages with
  | nil =>
    intro s h
    simp only [codeFromPages] at h
    injection h with h
    exact Option.noConfusion h
  | cons p rest ih =>
    intro s h
    cases p with
    | none => simp [codeFromPages] at h
    | some t =>
      simp only [codeFromPages] at h
      cases hc : codeFromPageText t with
      | some c =>
        rw [hc] at h
        injection h with h
        injection h with h
        subst h
        exact codeFromPageText_shape t _ hc
      | none =>
        rw [hc] at h
        exact ih s h

theorem codeFromPages_ok :
    ∀ (pages : List Page), (∀ p ∈ pages, p ≠ none) →
      ∃ r, codeFromPages pages = Except.ok r := by
  intro pages
  induction pages with
  | nil => intro _; exact ⟨none, rfl⟩
  | cons p rest ih =>
    intro hall
    cases p with
    | none => exact absurd rfl (hall none (by simp))
    | some t =>
      cases hc : codeFromPageText t with
      | some c => exact ⟨some c, by simp [codeFromPages, hc]⟩
      | none =>
        obtain ⟨r, hr⟩ := ih (fun q hq => hall q (by simp [hq]))
        exact ⟨r, by simp [codeFromPages, hc, hr]⟩

theorem pagesText_stops_at_none :
    ∀ (pre : List String) (rest : List Page) (acc : String),
      pagesText (pre.map some ++ none :: rest) acc = pagesText (pre.map some) acc := by
  intro pre
  induction pre with
  | nil => intro rest acc; rfl
  | cons t pre ih =>
    intro rest acc
    show pagesText (some t :: (pre.map some ++ none :: rest)) acc =
      pagesText (some t :: pre.map some) acc
    simp only [pagesText]
    exact ih rest (acc ++ t)

theorem detailsWithTrace_fst (doc : Document) :
    (detailsWithTrace doc).fst = extract_gift_card_details doc := by
  unfold detailsWithTrace extract_gift_card_details
  cases extract_gift_card_code doc with
  | error e => rfl
  | ok o =>
    cases o with
    | none => rfl
    | some c => rfl

theorem ilsAt_truncates (ds fs rest : List Char)
    (hds : ds ≠ []) (hfs : fs ≠ [])
    (hd : ∀ c ∈ ds, isDigitCh c = true) (hf : ∀ c ∈ fs, isDigitCh c = true) :
    ilsAt (ds ++ '.' :: (fs ++ ' ' :: 'I' :: 'L' :: 'S' :: rest)) =
      some (digitsToNat ds) := by
  obtain ⟨d, ds2, hdeq⟩ := List.exists_cons_of_ne_nil hds
  have hd0 : isDigitCh d = true := hd d (by simp [hdeq])
  have hIne : ('I' == d) = false := by
    refine beq_eq_false_iff_ne.mpr (fun hI => ?_)
    rw [← hI] at hd0
    exact absurd hd0 (by decide)
  have hne : ilsLit.isPrefixOf
      (ds ++ '.' :: (fs ++ ' ' :: 'I' :: 'L' :: 'S' :: rest)) = false := by
    rw [hdeq, List.cons_append]
    simp [ilsLit, List.isPrefixOf, hIne]
  have hds1 : 1 ≤ ds.length := by
    rw [hdeq]
    simp
  have hcount : countLeading isDigitCh
      (ds ++ '.' :: (fs ++ ' ' :: 'I' :: 'L' :: 'S' :: rest)) = ds.length :=
    countLeading_append isDigitCh ds '.' _ hd (by decide)
  have hdrop : (ds ++ '.' :: (fs ++ ' ' :: 'I' :: 'L' :: 'S' :: rest)).drop ds.length
      = '.' :: (fs ++ ' ' :: 'I' :: 'L' :: 'S' :: rest) := List.drop_left _ _
  have htake : (ds ++ '.' :: (fs ++ ' ' :: 'I' :: 'L' :: 'S' :: rest)).take ds.length
      = ds := List.take_left _ _
  have hfcount : countLeading isDigitCh (fs ++ ' ' :: 'I' :: 'L' :: 'S' :: rest)
      = fs.length := countLeading_append isDigitCh fs ' ' _ hf (by decide)
  have hfdrop : (fs ++ ' ' :: 'I' :: 'L' :: 'S' :: rest).drop fs.length
      = ' ' :: 'I' :: 'L' :: 'S' :: rest := List.drop_left _ _
  have hfs1 : 1 ≤ fs.length := by
    obtain ⟨a, l, hfeq⟩ := List.exists_cons_of_ne_nil hfs
    rw [hfeq]
    simp
  have hskip : ilsFracSkip ('.' :: (fs ++ ' ' :: 'I' :: 'L' :: 'S' :: rest))
      = ' ' :: 'I' :: 'L' :: 'S' :: rest := by
    unfold ilsFracSkip
    rw [if_pos]
    · show (fs ++ ' ' :: 'I' :: 'L' :: 'S' :: rest).drop
        (countLeading isDigitCh (fs ++ ' ' :: 'I' :: 'L' :: 'S' :: rest)) = _
      rw [hfcount, hfdrop]
    · refine ⟨rfl, ?_⟩
      show 1 ≤ countLeading isDigitCh (fs ++ ' ' :: 'I' :: 'L' :: 'S' :: rest)
      rw [hfcount]
      exact hfs1
  have hpref : ilsLit.isPrefixOf (dropSpaces (' ' :: 'I' :: 'L' :: 'S' :: rest))
      = true := by
    simp [dropSpaces, isSpaceCh, ilsLit, List.isPrefixOf]
  unfold ilsAt
  rw [hne]
  rw [if_neg (by simp)]
  simp only [hcount, hdrop, hskip, htake]
  rw [if_pos hds1]
  rw [hpref]
  rfl

/-! ## Claims -/

/-- C1 counterexample: a two-page document whose first page matches
only the Hebrew-label fallback while the second page (and hence the
full text of the document) contains an 8-character uppercase token
bounded by word boundaries.  The claimed priority of the primary
pattern over the full text would return the second-page token, but the
code scans page by page and returns the first-page fallback token. -/
theorem C1_counterexample :
    extract_gift_card_code (some [some "קוד ABC1234\n", some "ABCD1234\n"]) =
      Except.ok (some "ABC1234") ∧
    pattern1 (extract_pdf_text (some [some "קוד ABC1234\n", some "ABCD1234\n"])) =
      some "ABCD1234" ∧
    ("ABC1234" : String) ≠ "ABCD1234" := by
  refine ⟨rfl, rfl, ?_⟩
  decide

/-- C1 (amended): the three strategies run per page, in page order:
within one page the primary 8-character pattern wins over both
fallbacks, and any successful strategy on an earlier page wins over
every strategy of later pages; the primary pattern is not applied to
the full text across pages. -/
theorem C1_per_page_priority :
    (∀ (t m : String), pattern1 t = some m →
       extract_gift_card_code (some [some t]) = Except.ok (some m)) ∧
    (∀ (t1 t2 c : String), codeFromPageText t1 = some c →
       extract_gift_card_code (some [some t1, some t2]) = Except.ok (some c)) := by
  constructor
  · intro t m h
    show codeFromPages [some t] = Except.ok (some m)
    simp [codeFromPages, codeFromPageText, h]
  · intro t1 t2 c h
    show codeFromPages [some t1, some t2] = Except.ok (some c)
    simp [codeFromPages, h]

/-- C1 witness: the amended theorem at two concrete documents. -/
theorem C1_per_page_priority_witness :
    extract_gift_card_code (some [some "ABCD1234"]) =
      Except.ok (some "ABCD1234") ∧
    extract_gift_card_code (some [some "קוד ABC1234", some "ZZZZ9999"]) =
      Except.ok (some "ABC1234") :=
  ⟨C1_per_page_priority.1 "ABCD1234" "ABCD1234" rfl,
   C1_per_page_priority.2 "קוד ABC1234" "ZZZZ9999" "ABC1234" rfl⟩

/-- C2: when the code locator reports no code, the orchestrator returns
(absent, 0) and invokes neither the text extractor nor the value
locator; when it reports a code, the orchestrator runs the text
extractor, then the value locator on that text, and returns the pair. -/
theorem C2_short_circuit (doc : Document) :
    (extract_gift_card_code doc = Except.ok none →
       extract_gift_card_details doc = Except.ok (none, 0) ∧
       Component.valueLocator ∉ (detailsWithTrace doc).snd ∧
       Component.textExtractor ∉ (detailsWithTrace doc).snd) ∧
    (∀ c, extract_gift_card_code doc = Except.ok (some c) →
       extract_gift_card_details doc =
         Except.map (fun v => (some c, v))
           (extract_gift_card_value (extract_pdf_text doc)) ∧
       (detailsWithTrace doc).snd =
         [Component.codeLocator, Component.textExtractor,
          Component.valueLocator]) := by
  constructor
  · intro h
    refine ⟨?_, ?_, ?_⟩
    · unfold extract_gift_card_details
      rw [h]
    · unfold detailsWithTrace
      rw [h]
      simp
    · unfold detailsWithTrace
      rw [h]
      simp
  · intro c h
    constructor
    · unfold extract_gift_card_details
      rw [h]
      cases hv : extract_gift_card_value (extract_pdf_text doc) with
      | error e => rfl
      | ok v => rfl
    · unfold detailsWithTrace
      rw [h]

/-- C2 witness: the short circuit on a no-code document and the full
pipeline on a document with a code. -/
theorem C2_short_circuit_witness :
    extract_gift_card_details (some [some "hello"]) = Except.ok (none, 0) ∧
    extract_gift_card_details (some [some "ABC12345"]) =
      Except.map (fun v => (some "ABC12345", v))
        (extract_gift_card_value (extract_pdf_text (some [some "ABC12345"]))) :=
  ⟨((C2_short_circuit (some [some "hello"])).1 rfl).1,
   ((C2_short_circuit (some [some "ABC12345"])).2 "ABC12345" rfl).1⟩

/-- C3 counterexample: on a document that cannot be opened, both
extract_gift_card_code and extract_gift_card_details raise (the source
function has no try/except around fitz.open), contradicting the claim
that no core operation ever raises. -/
theorem C3_counterexample :
    extract_gift_card_code (none : Document) = Except.error () ∧
    extract_gift_card_details (none : Document) = Except.error () :=
  ⟨rfl, rfl⟩

/-- C3 (amended): extract_pdf_text never raises; extract_gift_card_code
raises exactly on an unopenable document or a failing page read;
extract_gift_card_value raises in exactly one further way, the ILS
branch converting a captured amount at the float infinity threshold
(witnessed by a 309-digit amount), and otherwise returns; and on a
fully readable document extract_gift_card_details raises only through
that overflow, returning normally whenever the value conversion does. -/
theorem C3_no_raise_on_readable :
    (∀ t : String, extract_gift_card_value t = Except.error () →
       ∃ d, findIls t.data = some d ∧ floatInfThreshold ≤ d) ∧
    (∀ pages : List Page, (∀ p ∈ pages, p ≠ none) →
       (∃ r, extract_gift_card_code (some pages) = Except.ok r) ∧
       (∀ v, extract_gift_card_value (extract_pdf_text (some pages)) =
           Except.ok v →
         ∃ r, extract_gift_card_details (some pages) = Except.ok r)) ∧
    extract_gift_card_value
        (⟨'I' :: 'L' :: 'S' :: ' ' :: List.replicate 309 '9'⟩ : String) =
      Except.error () := by
  refine ⟨?_, ?_, rfl⟩
  · intro t h
    unfold extract_gift_card_value at h
    split at h
    · exact Except.noConfusion h
    · split at h
      · exact Except.noConfusion h
      · split at h
        · rename_i d hd
          refine ⟨d, hd, ?_⟩
          unfold pyIntFloat at h
          by_cases hth : floatInfThreshold ≤ d
          · exact hth
          · rw [if_neg hth] at h
            exact Except.noConfusion h
        · exact Except.noConfusion h
  · intro pages hall
    obtain ⟨r, hr⟩ := codeFromPages_ok pages hall
    have hcode : extract_gift_card_code (some pages) = Except.ok r := hr
    refine ⟨⟨r, hcode⟩, ?_⟩
    intro v hv
    cases r with
    | none =>
      refine ⟨(none, 0), ?_⟩
      unfold extract_gift_card_details
      rw [hcode]
    | some c =>
      refine ⟨(some c, v), ?_⟩
      unfold extract_gift_card_details
      rw [hcode, hv]

/-- C3 witness: the error characterization at the 309-digit ILS
amount, and the no-raise parts at a one-page readable document. -/
theorem C3_no_raise_witness :
    (∃ d, findIls
        (⟨'I' :: 'L' :: 'S' :: ' ' :: List.replicate 309 '9'⟩ : String).data =
          some d ∧ floatInfThreshold ≤ d) ∧
    (∃ r, extract_gift_card_code (some [some "hello"]) = Except.ok r) ∧
    (∃ r, extract_gift_card_details (some [some "hello"]) = Except.ok r) :=
  ⟨C3_no_raise_on_readable.1
      (⟨'I' :: 'L' :: 'S' :: ' ' :: List.replicate 309 '9'⟩ : String) rfl,
   (C3_no_raise_on_readable.2.1 [some "hello"] (by simp)).1,
   (C3_no_raise_on_readable.2.1 [some "hello"] (by simp)).2 0 rfl⟩

/-- C4 counterexample: the third code pattern carries re.IGNORECASE,
which makes its [A-Z0-9] class match lowercase letters, so the code
locator can return a lowercase token, contradicting the claimed
uppercase [A-Z0-9] invariant. -/
theorem C4_counterexample :
    extract_gift_card_code (some [some "code abcdefgh"]) =
      Except.ok (some "abcdefgh") ∧
    'a' ∈ ("abcdefgh" : String).data ∧ isCodeChar 'a' = false := by
  refine ⟨rfl, ?_, rfl⟩
  decide

/-- C4 (amended): every code returned by the code locator has length
7 to 9 and all of its characters lie in the [A-Z0-9] class under
re.IGNORECASE, that is, the ASCII letters and digits plus the four
case-folded codepoints U+0130, U+0131, U+017F (long s) and U+212A
(Kelvin sign); the first two strategies return only uppercase [A-Z0-9]
tokens, but the case-insensitive third can also return lowercase
letters and those four codepoints, as the long-s token shows. -/
theorem C4_code_shape :
    (∀ (doc : Document) (c : String),
       extract_gift_card_code doc = Except.ok (some c) →
       (∀ ch ∈ c.data, isCodeCharIgn ch = true) ∧
         7 ≤ c.length ∧ c.length ≤ 9) ∧
    extract_gift_card_code (some [some "code ſſſſſſſ"]) =
      Except.ok (some "ſſſſſſſ") := by
  refine ⟨?_, rfl⟩
  intro doc c h
  cases doc with
  | none => exact Except.noConfusion h
  | some pages => exact codeFromPages_shape pages c h

/-- C4 witness: the amended shape at a concrete extracted code. -/
theorem C4_code_shape_witness :
    (∀ ch ∈ ("ABC12345" : String).data, isCodeCharIgn ch = true) ∧
      7 ≤ ("ABC12345" : String).length ∧ ("ABC12345" : String).length ≤ 9 :=
  C4_code_shape.1 (some [some "ABC12345"]) "ABC12345" rfl

/-- C5 counterexample: when the first page reads fine and the second
page read fails, extract_pdf_text returns the accumulated text of the
first page (the accumulator lives outside the try block), not the
empty string the claim requires. -/
theorem C5_counterexample :
    extract_pdf_text (some [some "A", none]) = "A" ∧ ("A" : String) ≠ "" := by
  refine ⟨rfl, ?_⟩
  decide

/-- C5 (amended): extract_pdf_text never raises; an unopenable
document yields the empty string, and a failing page read yields
exactly the text accumulated from the pages before the failure, that
is, the same result as extracting from just those pages. -/
theorem C5_best_effort_text :
    extract_pdf_text (none : Document) = "" ∧
    (∀ (pre : List String) (rest : List Page),
       extract_pdf_text (some (pre.map some ++ none :: rest)) =
         extract_pdf_text (some (pre.map some))) := by
  refine ⟨rfl, ?_⟩
  intro pre rest
  exact pagesText_stops_at_none pre rest ""

/-- C6: when neither shekel pattern matches and the ILS pattern does,
the result comes from the captured integer digits alone, through the
int(float(...)) conversion; a decimal fraction after the amount is
consumed by the pattern but never captured, so fractional amounts are
truncated, never rounded; in particular a text that is exactly
ILS 99.50 yields 99. -/
theorem C6_ils_truncation :
    (∀ (t : String) (v : Nat), findShekelDecimal t.data = none →
       findShekel t.data = none → findIls t.data = some v →
       extract_gift_card_value t = pyIntFloat v) ∧
    (∀ (ds fs rest : List Char), ds ≠ [] → fs ≠ [] →
       (∀ c ∈ ds, isDigitCh c = true) → (∀ c ∈ fs, isDigitCh c = true) →
       ilsAt (ds ++ '.' :: (fs ++ ' ' :: 'I' :: 'L' :: 'S' :: rest)) =
         some (digitsToNat ds)) ∧
    extract_gift_card_value "ILS 99.50" = Except.ok 99 := by
  refine ⟨?_, ?_, rfl⟩
  · intro t v h1 h2 h3
    unfold extract_gift_card_value
    rw [h1, h2, h3]
  · exact ilsAt_truncates

/-- C6 witness: the general parts at the concrete text ILS 99.50 and
at the amount 99.50 written before the currency code. -/
theorem C6_ils_truncation_witness :
    extract_gift_card_value "ILS 99.50" = pyIntFloat 99 ∧
    ilsAt (['9', '9'] ++ '.' :: (['5', '0'] ++ ' ' :: 'I' :: 'L' :: 'S' :: [])) =
      some (digitsToNat ['9', '9']) :=
  ⟨C6_ils_truncation.1 "ILS 99.50" 99 rfl rfl rfl,
   C6_ils_truncation.2.1 ['9', '9'] ['5', '0'] [] (by decide) (by decide)
     (by decide) (by decide)⟩

/-- C7 counterexample: for the text 0 followed by the shekel sign, the
bare-shekel pattern matches with amount 0, so the value is 0 even
though a currency pattern matched, refuting the claimed equivalence
between value 0 and no pattern matching. -/
theorem C7_counterexample :
    extract_gift_card_value "0 ₪" = Except.ok 0 ∧
    findShekel "0 ₪".data = some 0 :=
  ⟨rfl, rfl⟩

/-- C7 (amended): the value locator never returns an absent value:
whenever it returns normally the result is a natural number
(non-negative by type); it returns 0 whenever none of the three
currency patterns matches the text, and a matching pattern with
amount 0 also yields 0, so value 0 does not imply that no pattern
matched (the sole exception path, the ILS overflow, is the subject
of C3). -/
theorem C7_default_zero (t : String)
    (h1 : findShekelDecimal t.data = none) (h2 : findShekel t.data = none)
    (h3 : findIls t.data = none) :
    extract_gift_card_value t = Except.ok 0 := by
  unfold extract_gift_card_value
  rw [h1, h2, h3]

/-- C7 witness: the default at a text with no currency pattern. -/
theorem C7_default_zero_witness :
    extract_gift_card_value "hello" = Except.ok 0 :=
  C7_default_zero "hello" rfl rfl rfl

/-- C8: extract_gift_card_details is a pure function of the document:
two invocations on identical input yield identical results; no state
is carried across calls in the embedding, which is stateless like the
source module. -/
theorem C8_deterministic (d1 d2 : Document) (h : d1 = d2) :
    extract_gift_card_details d1 = extract_gift_card_details d2 :=
  congrArg extract_gift_card_details h

/-- C8 witness: two invocations on the same concrete document. -/
theorem C8_deterministic_witness :
    extract_gift_card_details (some [some "ABC12345"]) =
      extract_gift_card_details (some [some "ABC12345"]) :=
  C8_deterministic (some [some "ABC12345"]) (some [some "ABC12345"]) rfl

/-- C9: on the text 60.50 followed by the shekel sign the decimal
pattern fails (the fraction is not 00), and the bare-shekel fallback
matches the fractional digits 50 as the amount, returning 50 rather
than the integer part 60. -/
theorem C9_fraction_digits :
    extract_gift_card_value "60.50 ₪" = Except.ok 50 ∧
    findShekelDecimal "60.50 ₪".data = none ∧ (50 : Nat) ≠ 60 := by
  refine ⟨rfl, rfl, ?_⟩
  decide

/-- C10: in the fetch_gift_cards handler, a well-formed Bearer header
with mismatched Supabase and Gmail subjects makes the handler finish
normally, returning the 401 HTTPException as its value instead of
raising it. -/
theorem C10_mismatch_returned (authorization supabaseSub gmailSub : String)
    (proceed : Except HttpError HandlerValue)
    (hauth : startsWithBearer authorization = true)
    (hne : supabaseSub ≠ gmailSub) :
    fetch_gift_cards authorization supabaseSub gmailSub proceed =
      Except.ok (HandlerValue.exceptionValue 401
        "Subjects for Supabase and Gmail don\x27t match, stopping.") := by
  unfold fetch_gift_cards
  rw [hauth]
  rw [if_neg (by simp)]
  rw [if_neg hne]

/-- C10 witness: a concrete request with mismatched subjects. -/
theorem C10_mismatch_returned_witness :
    fetch_gift_cards "Bearer tok" "alice" "bob"
      (Except.ok (HandlerValue.summary 0 0)) =
      Except.ok (HandlerValue.exceptionValue 401
        "Subjects for Supabase and Gmail don\x27t match, stopping.") :=
  C10_mismatch_returned "Bearer tok" "alice" "bob"
    (Except.ok (HandlerValue.summary 0 0)) rfl (by decide)
